import Mathlib

/-!
Shallow embedding of src/CatastropheSim.py, a discrete-event simulation of a
single CPU under four scheduling policies (FCFS, SJF, Round-Robin,
Preemptive-Priority) with catastrophic faults and repairs.

Simulated time and durations are embedded as rationals.  Coroutine-style
simpy activities are embedded by splitting each Python generator at its
suspension points into explicit state-passing step functions; a simpy
process event, as seen by `interrupt()`, is an `Activity` record.
-/

namespace CatastropheSim

/-- Readjustable parameter (src line 7): mean arrival rate. -/
def LAMBDA : ℚ := 8 / 10

/-- Readjustable parameter (src line 8): mean service rate. -/
def MU : ℚ := 1

/-- Readjustable parameter (src line 9): mean rate of catastrophic events. -/
def XI : ℚ := 5 / 100

/-- Readjustable parameter (src line 10): mean rate of system restoration. -/
def BETA : ℚ := 2 / 10

/-- Readjustable parameter (src line 11): time quantum for Round-Robin. -/
def RR_QUANTUM : ℚ := 3 / 10

/-- Readjustable parameter (src line 12): total simulation time. -/
def SIM_DURATION : ℚ := 10000000

/-- Threshold used by all three run loops (src lines 120, 198, 266): a
recovery-time sample is logged only when it exceeds 1e-6. -/
def MTTR_EPS : ℚ := 1 / 1000000

/-- A process with its attributes (src lines 22-30). -/
structure Process where
  pid : ℕ
  arrival_time : ℚ
  burst_time_initial : ℚ
  burst_time_remaining : ℚ
  priority : ℕ
deriving DecidableEq

/-- Process.__init__ (src lines 25-30): `burst_time_remaining` starts equal to
the burst time; the random priority draw is a parameter of the embedding. -/
def Process_init (pid : ℕ) (arrival_time burst_time : ℚ) (priority : ℕ) : Process :=
  { pid := pid
    arrival_time := arrival_time
    burst_time_initial := burst_time
    burst_time_remaining := burst_time
    priority := priority }

/-- The cause attached to a simpy Interrupt: the string "catastrophe"
(src lines 98, 251) or the preemption cause delivered by the preemptive
CPU resource (any non-catastrophe cause, src line 298 vs 302). -/
inductive Cause
  | catastrophe
  | preempted
deriving DecidableEq

/-- A simpy process event as seen by `interrupt()`: whether it has already
triggered (completed), and the cause of the interruption delivered to it,
if any. -/
structure Activity where
  triggered : Bool
  interruptedWith : Option Cause
deriving DecidableEq

/-- Delivering `interrupt(cause)` to an activity. -/
def Activity.interrupt (a : Activity) (c : Cause) : Activity :=
  { a with interruptedWith := some c }

/-- Scheduler.handle_catastrophe, lines 97-98: interrupt the running process
event with cause "catastrophe" if there is one and it has not triggered. -/
def interruptRunning (ev : Option Activity) : Option Activity :=
  match ev with
  | none => none
  | some a => if a.triggered then some a else some (a.interrupt Cause.catastrophe)

/-! ## FCFS scheduler

The FCFS state is modelled at the granularity of simpy Store objects:
`stores` holds the contents of every Store ever created (indexed by creation
order), `ready_queue_ref` is the index of the Store currently named by
`self.ready_queue`, and `pending_get` is the index of the Store on which the
run loop's `yield self.ready_queue.get()` (src line 124) is currently
pending, when the run loop is blocked there.  This granularity is needed
because `FCFS_Scheduler.handle_catastrophe` (src line 158) rebinds
`self.ready_queue` to a fresh Store while any pending `get` stays registered
on the old one. -/

/-- State of an FCFS_Scheduler together with its run loop. -/
structure FCFSState where
  stores : List (List Process)
  ready_queue_ref : ℕ
  pending_get : Option ℕ
  running_process_event : Option Activity
  is_recovering : Bool
deriving DecidableEq

/-- FCFS_Scheduler.add_process (src line 154): put the process into the store
currently named by `self.ready_queue`. -/
def FCFS_add_process (s : FCFSState) (p : Process) : FCFSState :=
  { s with stores :=
      s.stores.set s.ready_queue_ref ((s.stores.getD s.ready_queue_ref []) ++ [p]) }

/-- FCFS_Scheduler.handle_catastrophe (src lines 156-158): run the base
handler (interrupt the running event, clear the recovery flag, src lines
96-99), then rebind `self.ready_queue` to a fresh empty Store.  A pending
`get` registered on the old store is untouched. -/
def FCFS_handle_catastrophe (s : FCFSState) : FCFSState :=
  { s with running_process_event := interruptRunning s.running_process_event
           is_recovering := false
           stores := s.stores ++ [[]]
           ready_queue_ref := s.stores.length }

/-- The ready structure of an FCFS scheduler: the contents of the store
currently named by `self.ready_queue`. -/
def FCFS_ready_queue (s : FCFSState) : List Process :=
  s.stores.getD s.ready_queue_ref []

/-- Whether the run loop's pending `yield self.ready_queue.get()` can fire:
a Store get triggers exactly when the store it was issued on is nonempty. -/
def get_fires (s : FCFSState) : Bool :=
  match s.pending_get with
  | some i => !(s.stores.getD i []).isEmpty
  | none => true

/-! ## SJF scheduler (ready structure only, for the catastrophe handler) -/

/-- State of an SJF_Scheduler: the PriorityStore holds PriorityItem pairs
(burst_time_initial, process) (src line 168). -/
structure SJFState where
  ready_queue : List (ℚ × Process)
  running_process_event : Option Activity
  is_recovering : Bool
deriving DecidableEq

/-- SJF_Scheduler.handle_catastrophe (src lines 170-172): base handler, then
rebind `self.ready_queue` to a fresh empty PriorityStore. -/
def SJF_handle_catastrophe (s : SJFState) : SJFState :=
  { s with running_process_event := interruptRunning s.running_process_event
           is_recovering := false
           ready_queue := [] }

/-! ## Round-Robin scheduler -/

/-- State of an RR_Scheduler: a deque of processes plus the base-class
fields (src lines 177-180). -/
structure RRState where
  ready_queue : List Process
  running_process_event : Option Activity
  is_recovering : Bool
deriving DecidableEq

/-- RR_Scheduler.handle_catastrophe (src lines 185-187): base handler, then
`self.ready_queue.clear()`. -/
def RR_handle_catastrophe (s : RRState) : RRState :=
  { s with running_process_event := interruptRunning s.running_process_event
           is_recovering := false
           ready_queue := [] }

/-- Result of one Round-Robin service slice. -/
structure RRStep where
  wait_times : List ℚ
  ready_queue : List Process
  process : Process
  completed : Bool
deriving DecidableEq

/-- RR_Scheduler.serve_process (src lines 216-232): on first service
(remaining = initial) record the wait `now - arrival_time`; run for
`min quantum remaining`; decrement the remaining burst; if still positive,
append the process back to the tail of the deque, otherwise complete.
The quantum is the readjustable parameter `RR_QUANTUM`. -/
def RR_serve_process (quantum : ℚ) (wait_times : List ℚ) (ready_queue : List Process)
    (process : Process) (now : ℚ) : RRStep :=
  let wait_times :=
    if process.burst_time_remaining = process.burst_time_initial
    then wait_times ++ [now - process.arrival_time]
    else wait_times
  let time_to_run := min quantum process.burst_time_remaining
  let process :=
    { process with burst_time_remaining := process.burst_time_remaining - time_to_run }
  if 0 < process.burst_time_remaining then
    { wait_times := wait_times
      ready_queue := ready_queue ++ [process]
      process := process
      completed := false }
  else
    { wait_times := wait_times
      ready_queue := ready_queue
      process := process
      completed := true }

/-- The sequence of slice lengths obtained by iterating the service step of
RR_Scheduler.serve_process (src lines 225-230) on an uninterrupted process:
each slice runs for `min quantum remaining` and the process is served again
while its remaining burst is positive.  The fuel argument bounds the
iteration; it is inessential once it is at least the number of slices. -/
def RR_slices (quantum : ℚ) : ℕ → ℚ → List ℚ
  | 0, _ => []
  | n + 1, rem =>
      if rem ≤ 0 then []
      else min quantum rem :: RR_slices quantum n (rem - min quantum rem)

/-- The wait-times list after an uninterrupted process is repeatedly served
by RR_Scheduler.serve_process, one slice per element of `nows` (the simulated
times at which the successive slices start), until it completes. -/
def RR_serve_run (quantum : ℚ) : ℕ → List ℚ → List ℚ → Process → List ℚ
  | 0, _, wait_times, _ => wait_times
  | _ + 1, [], wait_times, _ => wait_times
  | n + 1, now :: rest, wait_times, process =>
      if process.burst_time_remaining ≤ 0 then wait_times
      else
        RR_serve_run quantum n rest
          (RR_serve_process quantum wait_times [] process now).wait_times
          (RR_serve_process quantum wait_times [] process now).process

/-! ## Non-preemptive service (FCFS and SJF) -/

/-- NonPreemptiveScheduler.serve_process (src lines 135-145): once the CPU is
granted at `start_time`, record the wait `start_time - arrival_time`, run for
the entire initial burst, and complete at `start_time + burst_time_initial`.
The process record itself is never mutated.  Returns the updated wait-times
list and the completion time. -/
def NP_serve_process (wait_times : List ℚ) (process : Process) (start_time : ℚ) :
    List ℚ × ℚ :=
  (wait_times ++ [start_time - process.arrival_time],
   start_time + process.burst_time_initial)

/-! ## Preemptive-Priority scheduler

Each admitted process spawns its own serve_process activity (src line 245).
`serve_acts` lists these activities in spawn order; `active_processes` is the
dict mapping a pid to its activity for activities currently between
registration (src line 276) and CPU grant (src line 280).  `holder` is the
activity index and request priority currently granted the preemptive CPU
resource.  `running_process_event` belongs to the base class and is never
assigned by this scheduler. -/

/-- A spawned serve_process activity together with the pid it serves. -/
structure PPAct where
  pid : ℕ
  act : Activity
deriving DecidableEq

/-- Default activity used for out-of-range lookups. -/
def dfltAct : PPAct := { pid := 0, act := { triggered := false, interruptedWith := none } }

/-- State of a Preemptive_Priority_Scheduler. -/
structure PPState where
  ready_queue : List Process
  serve_acts : List PPAct
  active_processes : List (ℕ × ℕ)
  running_process_event : Option ℕ
  is_recovering : Bool
  holder : Option (ℕ × ℕ)
deriving DecidableEq

/-- Preemptive_Priority_Scheduler.__init__ (src lines 236-239): empty deque,
free preemptive CPU, no activities, and the base-class fields. -/
def PP_init : PPState :=
  { ready_queue := []
    serve_acts := []
    active_processes := []
    running_process_event := none
    is_recovering := false
    holder := none }

/-- Preemptive_Priority_Scheduler.add_process (src lines 241-245): append the
process to the tracking deque and spawn a fresh serve_process activity for
it.  `running_process_event` is not assigned. -/
def PP_add_process (s : PPState) (p : Process) : PPState :=
  { s with ready_queue := s.ready_queue ++ [p]
           serve_acts := s.serve_acts ++ [{ pid := p.pid
                                            act := { triggered := false
                                                     interruptedWith := none } }] }

/-- Interrupt the activity at index `i` (a no-op when it has already
triggered or the index is out of range), as simpy's `interrupt` on the
corresponding process event. -/
def interruptActsAt (acts : List PPAct) (i : ℕ) (c : Cause) : List PPAct :=
  acts.set i
    (let a := acts.getD i dfltAct
     if a.act.triggered then a else { a with act := a.act.interrupt c })

/-- Modelled from the spec: the grant rule of the preemptive priority CPU
resource (simpy.PreemptiveResource, not part of src/; spec section 4.3
"Resource Models"), combined with the request bookkeeping of
Preemptive_Priority_Scheduler.serve_process (src lines 275-280): the
activity at index `idx` registers itself in `active_processes` (src line
276) and requests the CPU at priority `prio` (src line 275).  If the
resource is free the request is granted and the registration removed (src
line 280).  If it is held by a numerically larger (lower) priority holder,
the holder's activity is interrupted with the preemption cause and the new
request is granted.  Otherwise the request stays queued, still registered. -/
def PP_request (s : PPState) (idx prio : ℕ) : PPState :=
  let pid := (s.serve_acts.getD idx dfltAct).pid
  let s1 := { s with active_processes := (pid, idx) :: s.active_processes }
  match s.holder with
  | none =>
      { s1 with active_processes := s1.active_processes.filter (fun e => e.1 ≠ pid)
                holder := some (idx, prio) }
  | some (hidx, hprio) =>
      if prio < hprio then
        { s1 with serve_acts := interruptActsAt s1.serve_acts hidx Cause.preempted
                  active_processes := s1.active_processes.filter (fun e => e.1 ≠ pid)
                  holder := some (idx, prio) }
      else s1

/-- Preemptive_Priority_Scheduler.handle_catastrophe (src lines 247-254):
interrupt with cause "catastrophe" every not-yet-triggered activity recorded
in `active_processes` (the dict holds only activities still waiting for the
CPU grant), then run the base handler (src lines 96-99) on
`running_process_event` (never assigned by this scheduler), then clear the
tracking deque. -/
def PP_handle_catastrophe (s : PPState) : PPState :=
  let acts1 := s.serve_acts.mapIdx (fun j a =>
    if s.active_processes.any (fun e => e.2 = j) && !a.act.triggered
    then { a with act := a.act.interrupt Cause.catastrophe } else a)
  let acts2 :=
    match s.running_process_event with
    | some i => interruptActsAt acts1 i Cause.catastrophe
    | none => acts1
  { s with serve_acts := acts2
           is_recovering := false
           ready_queue := [] }

/-- Preemptive_Priority_Scheduler.serve_process wait bookkeeping (src lines
272, 282-283): the wait recorded on CPU grant is the grant time minus the
time the serve activity started (its admission time). -/
def PP_wait_time (start_wait now : ℚ) : ℚ := now - start_wait

/-- Preemptive_Priority_Scheduler.serve_process preemption branch (src lines
302-304): on a non-catastrophe interruption, the displaced process's
remaining burst is decremented by exactly the time it spent executing,
`now - start_exec_time`. -/
def PP_serve_preempted (process : Process) (start_exec_time now : ℚ) : Process :=
  { process with burst_time_remaining :=
      process.burst_time_remaining - (now - start_exec_time) }

/-- Preemptive_Priority_Scheduler.serve_process interruption handler effect
on the scheduler state (src lines 294-306): remove the pid from
`active_processes` if present; for either cause the handler then returns.
No activity is spawned and the tracking deque is not touched. -/
def PP_handle_interrupt (s : PPState) (p : Process) (_ : Cause) : PPState :=
  { s with active_processes := s.active_processes.filter (fun e => e.1 ≠ p.pid) }

/-! ## Recovery accounting (fault injector and run-loop recovery checks)

The fault injector (src lines 53-74) and the recovery-window bookkeeping at
the top of the three run loops (src lines 114-122, 191-200, 260-268, which
are identical for this purpose) are embedded as a step function over the
shared recovery state, driven by events. -/

/-- The globals involved in recovery accounting (src lines 16-19) plus the
scheduler's `is_recovering` flag (src line 83). -/
structure RecoveryState where
  system_operational : Bool
  is_recovering : Bool
  last_restoration_time : ℚ
  recovery_times : List ℚ
deriving DecidableEq

/-- The events that touch the recovery state: a catastrophe firing (src
lines 61-65), a repair completing (src lines 70-73), and one pass of a
scheduler run loop's top-of-loop check with the observed CPU-idle and
queue-empty conditions (src lines 114-122 and the identical lines 191-200,
260-268). -/
inductive RecEvent
  | catastrophe
  | restore (now : ℚ)
  | check (cpuIdle queueEmpty : Bool) (now : ℚ)

/-- One step of the recovery accounting.  A catastrophe only has an effect
while the system is operational (src line 61); it takes the system down and
`handle_catastrophe` clears the recovery flag (src line 99).  A restoration
brings the system up, records the restoration time, and sets the recovery
flag (src lines 71-73).  A run-loop check runs only while the system is
operational (src lines 114-116); when recovering with the CPU idle and the
ready structure empty it computes `now - last_restoration_time`, appends it
to `recovery_times` only when it exceeds 1e-6, and clears the flag (src
lines 118-122). -/
def recStep (s : RecoveryState) (e : RecEvent) : RecoveryState :=
  match e with
  | RecEvent.catastrophe =>
      if s.system_operational then
        { s with system_operational := false, is_recovering := false }
      else s
  | RecEvent.restore now =>
      { s with system_operational := true
               last_restoration_time := now
               is_recovering := true }
  | RecEvent.check cpuIdle queueEmpty now =>
      if s.system_operational then
        if s.is_recovering && cpuIdle && queueEmpty then
          let recovery_time := now - s.last_restoration_time
          let recovery_times' :=
            if MTTR_EPS < recovery_time
            then s.recovery_times ++ [recovery_time]
            else s.recovery_times
          { s with recovery_times := recovery_times', is_recovering := false }
        else s
      else s

/-- Running the recovery accounting over a list of events. -/
def recRun (s : RecoveryState) (es : List RecEvent) : RecoveryState :=
  es.foldl recStep s

/-- Whether an event is a restoration. -/
def isRestore : RecEvent → Bool
  | RecEvent.restore _ => true
  | _ => false

/-! ## Fault-injector downtime accounting and final metrics -/

/-- Well-formed history of completed catastrophe/repair pairs of the fault
injector (src lines 57-74), as (catastrophe time, repair duration) pairs:
starting from time `t`, each catastrophe fires no earlier than the previous
repair completed (the loop is sequential, one failure in flight at a time),
repair durations are nonnegative (exponential draws), and only repairs whose
completion lies within the horizon accumulate downtime (src line 70 runs
only when the repair timeout completes inside the run). -/
def injectorWF (horizon : ℚ) : ℚ → List (ℚ × ℚ) → Bool
  | _, [] => true
  | t, (c, d) :: rest =>
      decide (t ≤ c) && decide (0 ≤ d) && decide (c + d ≤ horizon) &&
        injectorWF horizon (c + d) rest

/-- total_downtime (src lines 17, 70): the sum of the completed repair
durations. -/
def injectorDowntime (l : List (ℚ × ℚ)) : ℚ := (l.map (fun e => e.2)).sum

/-- Modelled from the spec: the list of completed catastrophe/repair pairs
drawn by the fault injector as a function of the failure rate.  The random
draws themselves (random.expovariate) are library code not in src/; per the
spec (sections 4.5 and 8, "no catastrophes ever drawn" at rate 0), a failure
rate of 0 yields no catastrophe within the horizon, so the completed list is
empty; otherwise the draws are a parameter of the embedding. -/
def completedRepairs (xi : ℚ) (draws : List (ℚ × ℚ)) : List (ℚ × ℚ) :=
  if xi = 0 then [] else draws

/-- The availability reported at the end of the run (src line 335). -/
def availability (sim_duration total_downtime : ℚ) : ℚ :=
  (sim_duration - total_downtime) / sim_duration * 100

/-! ## Configuration and the pre-run phase of the entry point -/

/-- The readjustable parameters (src lines 6-12) gathered as one
configuration record. -/
structure Config where
  lambda_arrival_rate : ℚ
  mu_service_rate : ℚ
  xi_failure_rate : ℚ
  beta_repair_rate : ℚ
  rr_quantum : ℚ
  sim_duration : ℚ
deriving DecidableEq

/-- The default configuration (src lines 6-12). -/
def defaultConfig : Config :=
  { lambda_arrival_rate := LAMBDA
    mu_service_rate := MU
    xi_failure_rate := XI
    beta_repair_rate := BETA
    rr_quantum := RR_QUANTUM
    sim_duration := SIM_DURATION }

/-- A configuration error surfaced before the simulation run. -/
inductive ConfigError
  | invalidParameter
deriving DecidableEq

/-- The pre-run phase of the entry point (src lines 309-320): it creates the
environment, the chosen scheduler, and the two background activities, and
then calls env.run.  It contains no validation of the configuration
whatsoever — no branch inspects the parameters — so it never produces a
configuration error. -/
def preRunSetup (_ : Config) : Except ConfigError Unit := Except.ok ()

/-! ## Helper lemmas -/

/-- Reading back the element just written by List.set. -/
lemma getD_set_self {α : Type} (l : List α) (i : ℕ) (a d : α) (h : i < l.length) :
    (l.set i a).getD i d = a := by
  simp [List.getD_eq_getElem?_getD, List.getElem?_set_self', h]

/-- The process leaving a Round-Robin slice has its remaining burst
decremented by the slice length min quantum remaining. -/
lemma RR_serve_process_process (quantum : ℚ) (w : List ℚ) (qu : List Process)
    (p : Process) (now : ℚ) :
    (RR_serve_process quantum w qu p now).process =
      { p with burst_time_remaining :=
          p.burst_time_remaining - min quantum p.burst_time_remaining } := by
  simp only [RR_serve_process]
  split <;> rfl

/-- A Round-Robin slice records a wait exactly when it is the first service
of the process. -/
lemma RR_serve_process_wait_times (quantum : ℚ) (w : List ℚ) (qu : List Process)
    (p : Process) (now : ℚ) :
    (RR_serve_process quantum w qu p now).wait_times =
      if p.burst_time_remaining = p.burst_time_initial
      then w ++ [now - p.arrival_time] else w := by
  simp only [RR_serve_process]
  split <;> rfl

/-- Iterating the Round-Robin service step on a process that has already
been served once (remaining strictly below initial) records no further wait. -/
lemma RR_serve_run_of_lt (quantum : ℚ) (hq : 0 ≤ quantum) :
    ∀ (n : ℕ) (nows w : List ℚ) (p : Process),
      p.burst_time_remaining < p.burst_time_initial →
      RR_serve_run quantum n nows w p = w := by
  intro n
  induction n with
  | zero => intro nows w p _; rfl
  | succ n ih =>
      intro nows w p hlt
      cases nows with
      | nil => rfl
      | cons now rest =>
          rw [RR_serve_run]
          by_cases h0 : p.burst_time_remaining ≤ 0
          · rw [if_pos h0]
          · rw [if_neg h0]
            have hw : (RR_serve_process quantum w [] p now).wait_times = w := by
              rw [RR_serve_process_wait_times, if_neg (ne_of_lt hlt)]
            have hmin : 0 ≤ min quantum p.burst_time_remaining :=
              le_min hq (le_of_lt (not_le.mp h0))
            have hlt' : (RR_serve_process quantum w [] p now).process.burst_time_remaining
                < (RR_serve_process quantum w [] p now).process.burst_time_initial := by
              rw [RR_serve_process_process]
              show p.burst_time_remaining - min quantum p.burst_time_remaining
                < p.burst_time_initial
              linarith
            rw [hw]
            exact ih rest w _ hlt'

/-- Iterating the service step on nonpositive remaining burst yields no
slices. -/
lemma RR_slices_nonpos (quantum r : ℚ) (n : ℕ) (h : r ≤ 0) :
    RR_slices quantum n r = [] := by
  cases n <;> simp [RR_slices, h]

/-- The slice list of an uninterrupted Round-Robin service: given enough
fuel the number of slices is the ceiling of demand over quantum, the slices
sum to the demand, and each slice is positive and at most the quantum. -/
lemma RR_slices_spec (quantum : ℚ) (hq : 0 < quantum) :
    ∀ (n : ℕ) (d : ℚ), 0 < d → Nat.ceil (d / quantum) ≤ n →
      (RR_slices quantum n d).length = Nat.ceil (d / quantum) ∧
      (RR_slices quantum n d).sum = d ∧
      ∀ t ∈ RR_slices quantum n d, 0 < t ∧ t ≤ quantum := by
  intro n
  induction n with
  | zero =>
      intro d hd hle
      exfalso
      have : 0 < Nat.ceil (d / quantum) := Nat.ceil_pos.mpr (div_pos hd hq)
      omega
  | succ n ih =>
      intro d hd hle
      rw [RR_slices, if_neg (not_le.mpr hd)]
      by_cases hdq : d ≤ quantum
      · have hmin : min quantum d = d := min_eq_right hdq
        have hone : Nat.ceil (d / quantum) = 1 := by
          have h1 : d / quantum ≤ 1 := (div_le_one hq).mpr hdq
          have h2 : (0 : ℕ) < Nat.ceil (d / quantum) :=
            Nat.ceil_pos.mpr (div_pos hd hq)
          have h3 : Nat.ceil (d / quantum) ≤ 1 := by
            apply Nat.ceil_le.mpr
            simpa using h1
          omega
        have htail : RR_slices quantum n (d - min quantum d) = [] := by
          rw [hmin]
          exact RR_slices_nonpos quantum _ n (by linarith)
        rw [htail, hone, hmin]
        refine ⟨rfl, by simp, ?_⟩
        intro t ht
        simp only [List.mem_singleton] at ht
        exact ⟨ht ▸ hd, ht ▸ hdq⟩
      · have hdq' : quantum < d := not_le.mp hdq
        have hmin : min quantum d = quantum := min_eq_left (le_of_lt hdq')
        have hd' : 0 < d - quantum := sub_pos.mpr hdq'
        have hceil : Nat.ceil (d / quantum)
            = Nat.ceil ((d - quantum) / quantum) + 1 := by
          have h0 : (0 : ℚ) ≤ (d - quantum) / quantum :=
            div_nonneg (le_of_lt hd') (le_of_lt hq)
          have heq : (d - quantum) / quantum + 1 = d / quantum := by
            field_simp
          rw [← heq, Nat.ceil_add_one h0]
        have hle' : Nat.ceil ((d - quantum) / quantum) ≤ n := by omega
        obtain ⟨hlen, hsum, hmem⟩ := ih (d - quantum) hd' hle'
        rw [hmin]
        refine ⟨?_, ?_, ?_⟩
        · simp [hlen, hceil]
        · simp [hsum]
        · intro t ht
          rcases List.mem_cons.mp ht with h | h
          · exact ⟨h ▸ hq, h ▸ le_refl quantum⟩
          · exact hmem t h

/-- A step of the recovery accounting appends a sample only in a run-loop
check observed while operational and recovering, with the CPU idle and the
ready structure empty, and only when the window length exceeds the 1e-6
threshold; the sample is the window length. -/
lemma recStep_append (s : RecoveryState) (e : RecEvent)
    (h : (recStep s e).recovery_times ≠ s.recovery_times) :
    ∃ now, e = RecEvent.check true true now ∧
      s.system_operational = true ∧ s.is_recovering = true ∧
      MTTR_EPS < now - s.last_restoration_time ∧
      (recStep s e).recovery_times
        = s.recovery_times ++ [now - s.last_restoration_time] := by
  cases e with
  | catastrophe =>
      exfalso
      apply h
      by_cases hop : s.system_operational <;> simp [recStep, hop]
  | restore now =>
      exfalso
      apply h
      simp [recStep]
  | check cpuIdle queueEmpty now =>
      by_cases hop : s.system_operational
      · by_cases hcond : (s.is_recovering && cpuIdle && queueEmpty) = true
        · by_cases heps : MTTR_EPS < now - s.last_restoration_time
          · obtain ⟨⟨hrec, hidle⟩, hempty⟩ :
                (s.is_recovering = true ∧ cpuIdle = true) ∧ queueEmpty = true := by
              simpa [Bool.and_eq_true] using hcond
            refine ⟨now, ?_, hop, hrec, heps, ?_⟩
            · rw [hidle, hempty]
            · simp [recStep, hop, hcond, heps]
          · exfalso
            apply h
            simp [recStep, hop, hcond, heps]
        · exfalso
          apply h
          simp [recStep, hop, hcond]
      · exfalso
        apply h
        simp [recStep, hop]

/-- One step of the recovery accounting: the number of samples plus the
pending-window indicator grows by at most the number of restorations. -/
lemma recStep_count (s : RecoveryState) (e : RecEvent) :
    (recStep s e).recovery_times.length
        + (if (recStep s e).is_recovering then 1 else 0)
      ≤ s.recovery_times.length + (if s.is_recovering then 1 else 0)
        + (if isRestore e then 1 else 0) := by
  cases e with
  | catastrophe =>
      by_cases hop : s.system_operational <;>
        by_cases hrec : s.is_recovering <;>
        simp [recStep, isRestore, hop, hrec]
  | restore now =>
      by_cases hrec : s.is_recovering <;> simp [recStep, isRestore, hrec]
  | check cpuIdle queueEmpty now =>
      by_cases hop : s.system_operational
      · by_cases hcond : (s.is_recovering && cpuIdle && queueEmpty) = true
        · obtain ⟨⟨hrec, hidle⟩, hempty⟩ :
              (s.is_recovering = true ∧ cpuIdle = true) ∧ queueEmpty = true := by
            simpa [Bool.and_eq_true] using hcond
          by_cases heps : MTTR_EPS < now - s.last_restoration_time <;>
            simp [recStep, isRestore, hop, hrec, hidle, hempty, heps]
        · simp [recStep, isRestore, hop, hcond]
      · simp [recStep, isRestore, hop]

/-- Over any event list, the number of recovery samples grows by at most
the number of restorations plus one for an already-open window. -/
lemma recRun_count :
    ∀ (es : List RecEvent) (s : RecoveryState),
      (recRun s es).recovery_times.length
          + (if (recRun s es).is_recovering then 1 else 0)
        ≤ s.recovery_times.length + (if s.is_recovering then 1 else 0)
          + (es.filter isRestore).length := by
  intro es
  induction es with
  | nil => intro s; simp [recRun]
  | cons e es ih =>
      intro s
      have h1 := recStep_count s e
      have h2 := ih (recStep s e)
      simp only [recRun, List.foldl_cons] at h2 ⊢
      have hf : (List.filter isRestore (e :: es)).length
          = (if isRestore e = true then 1 else 0) + (List.filter isRestore es).length := by
        by_cases hre : isRestore e = true <;>
          simp [List.filter_cons, hre, Nat.add_comm]
      rw [hf]
      linarith

/-- Without a restoration event and with no window pending, the recovery
accounting appends nothing and the flag stays clear. -/
lemma recRun_no_restore :
    ∀ (es : List RecEvent) (s : RecoveryState),
      s.is_recovering = false → (∀ e ∈ es, isRestore e = false) →
      (recRun s es).recovery_times = s.recovery_times ∧
      (recRun s es).is_recovering = false := by
  intro es
  induction es with
  | nil => intro s h _; exact ⟨rfl, h⟩
  | cons e es ih =>
      intro s hrec hall
      have he : isRestore e = false := hall e (List.mem_cons_self e es)
      have hstep : (recStep s e).recovery_times = s.recovery_times ∧
          (recStep s e).is_recovering = false := by
        cases e with
        | catastrophe =>
            by_cases hop : s.system_operational <;> simp [recStep, hop, hrec]
        | restore now => simp [isRestore] at he
        | check cpuIdle queueEmpty now =>
            by_cases hop : s.system_operational <;> simp [recStep, hop, hrec]
      have hrest := ih (recStep s e) hstep.2
        (fun e' he' => hall e' (List.mem_cons_of_mem e he'))
      simp only [recRun, List.foldl_cons] at hrest ⊢
      exact ⟨hrest.1.trans hstep.1, hrest.2⟩

/-- Downtime of a well-formed completed-repair history is nonnegative and
bounded by the remaining horizon. -/
lemma injectorWF_downtime (T : ℚ) :
    ∀ (l : List (ℚ × ℚ)) (t : ℚ), t ≤ T → injectorWF T t l = true →
      0 ≤ injectorDowntime l ∧ injectorDowntime l ≤ T - t := by
  intro l
  induction l with
  | nil =>
      intro t ht _
      simp [injectorDowntime]
      linarith
  | cons cd rest ih =>
      intro t ht hwf
      obtain ⟨c, d⟩ := cd
      simp only [injectorWF, Bool.and_eq_true, decide_eq_true_eq] at hwf
      obtain ⟨⟨⟨htc, hd⟩, hcd⟩, hrest⟩ := hwf
      have := ih (c + d) hcd hrest
      simp only [injectorDowntime, List.map_cons, List.sum_cons] at this ⊢
      constructor <;> linarith [this.1, this.2]

/-! ## Claims -/

/-- C1: the claim states that for every policy, handle_catastrophe empties
the ready structure and delivers a "catastrophe" interruption to the
executing process's activity.  This holds for FCFS, SJF and Round-Robin
(first three conjuncts, evaluated on a scenario with three queued processes
and one executing).  It fails for Preemptive-Priority: in the concrete
scenario below, process 1 is executing on the CPU (its registration was
deleted from active_processes on grant and running_process_event is never
assigned by this scheduler) and process 2 is queued waiting; after
handle_catastrophe the deque is empty and the waiter's activity is
interrupted, but the executing activity of process 1 receives no
interruption at all. -/
theorem claim_C1 :
    (FCFS_ready_queue (FCFS_handle_catastrophe
        { stores := [[Process_init 1 0 2 5, Process_init 2 0 3 4, Process_init 3 1 1 2]]
          ready_queue_ref := 0
          pending_get := none
          running_process_event := some ⟨false, none⟩
          is_recovering := false }) = [] ∧
     (FCFS_handle_catastrophe
        { stores := [[Process_init 1 0 2 5, Process_init 2 0 3 4, Process_init 3 1 1 2]]
          ready_queue_ref := 0
          pending_get := none
          running_process_event := some ⟨false, none⟩
          is_recovering := false }).running_process_event
       = some ⟨false, some Cause.catastrophe⟩) ∧
    ((SJF_handle_catastrophe
        { ready_queue := [(2, Process_init 1 0 2 5), (3, Process_init 2 0 3 4),
            (1, Process_init 3 1 1 2)]
          running_process_event := some ⟨false, none⟩
          is_recovering := false }).ready_queue = [] ∧
     (SJF_handle_catastrophe
        { ready_queue := [(2, Process_init 1 0 2 5), (3, Process_init 2 0 3 4),
            (1, Process_init 3 1 1 2)]
          running_process_event := some ⟨false, none⟩
          is_recovering := false }).running_process_event
       = some ⟨false, some Cause.catastrophe⟩) ∧
    ((RR_handle_catastrophe
        { ready_queue := [Process_init 1 0 2 5, Process_init 2 0 3 4, Process_init 3 1 1 2]
          running_process_event := some ⟨false, none⟩
          is_recovering := false }).ready_queue = [] ∧
     (RR_handle_catastrophe
        { ready_queue := [Process_init 1 0 2 5, Process_init 2 0 3 4, Process_init 3 1 1 2]
          running_process_event := some ⟨false, none⟩
          is_recovering := false }).running_process_event
       = some ⟨false, some Cause.catastrophe⟩) ∧
    ((PP_handle_catastrophe (PP_request (PP_add_process
          (PP_request (PP_add_process PP_init (Process_init 1 0 5 3)) 0 3)
          (Process_init 2 0 4 7)) 1 7)).ready_queue = [] ∧
     ((PP_handle_catastrophe (PP_request (PP_add_process
          (PP_request (PP_add_process PP_init (Process_init 1 0 5 3)) 0 3)
          (Process_init 2 0 4 7)) 1 7)).serve_acts.getD 1 dfltAct).act.interruptedWith
       = some Cause.catastrophe ∧
     (PP_handle_catastrophe (PP_request (PP_add_process
          (PP_request (PP_add_process PP_init (Process_init 1 0 5 3)) 0 3)
          (Process_init 2 0 4 7)) 1 7)).holder = some (0, 3) ∧
     ((PP_handle_catastrophe (PP_request (PP_add_process
          (PP_request (PP_add_process PP_init (Process_init 1 0 5 3)) 0 3)
          (Process_init 2 0 4 7)) 1 7)).serve_acts.getD 0 dfltAct).act.interruptedWith
       = none) := by
  decide

/-- Auxiliary computation for C2: admitting processes after the catastrophe
only fills the freshly created store, never the one the blocked get is
registered on. -/
lemma fcfs_foldl_adds (ps : List Process) :
    ∀ acc : List Process,
      ps.foldl FCFS_add_process
        { stores := [[], acc], ready_queue_ref := 1, pending_get := some 0,
          running_process_event := none, is_recovering := false } =
      { stores := [[], acc ++ ps], ready_queue_ref := 1, pending_get := some 0,
        running_process_event := none, is_recovering := false } := by
  induction ps with
  | nil => intro acc; simp
  | cons p ps ih =>
      intro acc
      rw [List.foldl_cons]
      have hstep : FCFS_add_process
          { stores := [[], acc], ready_queue_ref := 1, pending_get := some 0,
            running_process_event := none, is_recovering := false } p =
          { stores := [[], acc ++ [p]], ready_queue_ref := 1, pending_get := some 0,
            running_process_event := none, is_recovering := false } := rfl
      rw [hstep, ih (acc ++ [p])]
      simp

/-- C2: the claim states that arrivals deferred across an outage are served
once the system is operational again.  Refuted on FCFS: when the catastrophe
strikes while the run loop is blocked on `yield self.ready_queue.get()` of
the (empty) current store, handle_catastrophe rebinds `self.ready_queue` to
a fresh store while the pending get stays registered on the old one; every
process admitted afterwards (any list `ps`) lands in the new store, the old
store stays empty, so the blocked get can never fire and the run loop never
pulls or serves any admitted process. -/
theorem claim_C2 (ps : List Process) :
    get_fires (ps.foldl FCFS_add_process (FCFS_handle_catastrophe
      { stores := [[]], ready_queue_ref := 0, pending_get := some 0,
        running_process_event := none, is_recovering := false })) = false ∧
    (ps.foldl FCFS_add_process (FCFS_handle_catastrophe
      { stores := [[]], ready_queue_ref := 0, pending_get := some 0,
        running_process_event := none, is_recovering := false })).pending_get = some 0 ∧
    FCFS_ready_queue (ps.foldl FCFS_add_process (FCFS_handle_catastrophe
      { stores := [[]], ready_queue_ref := 0, pending_get := some 0,
        running_process_event := none, is_recovering := false })) = ps := by
  have key := fcfs_foldl_adds ps []
  simp only [List.nil_append] at key
  have h0 : FCFS_handle_catastrophe
      { stores := [[]], ready_queue_ref := 0, pending_get := some 0,
        running_process_event := none, is_recovering := false } =
      ({ stores := [[], []], ready_queue_ref := 1, pending_get := some 0,
         running_process_event := none, is_recovering := false } : FCFSState) := rfl
  rw [h0, key]
  exact ⟨rfl, rfl, rfl⟩

/-- C3: under Preemptive-Priority, a request with numerically smaller
priority than the current holder's interrupts the holder's activity with the
preemption cause and is itself granted; the displaced process's remaining
burst is decremented by exactly the time it spent executing; and the
interruption handler neither re-queues the displaced process nor spawns a
new service activity for it. -/
theorem claim_C3 (s : PPState) (hidx hprio idx prio : ℕ)
    (hhold : s.holder = some (hidx, hprio)) (hlt : prio < hprio)
    (hrange : hidx < s.serve_acts.length)
    (htrig : (s.serve_acts.getD hidx dfltAct).act.triggered = false) :
    (PP_request s idx prio).holder = some (idx, prio) ∧
    ((PP_request s idx prio).serve_acts.getD hidx dfltAct).act.interruptedWith
      = some Cause.preempted ∧
    (∀ (p : Process) (ts tn : ℚ),
        (PP_serve_preempted p ts tn).burst_time_remaining
          = p.burst_time_remaining - (tn - ts)) ∧
    (∀ (s2 : PPState) (p : Process),
        (PP_handle_interrupt s2 p Cause.preempted).ready_queue = s2.ready_queue ∧
        (PP_handle_interrupt s2 p Cause.preempted).serve_acts = s2.serve_acts) := by
  refine ⟨?_, ?_, fun p ts tn => rfl, fun s2 p => ⟨rfl, rfl⟩⟩
  · simp only [PP_request, hhold]
    rw [if_pos hlt]
  · simp only [PP_request, hhold]
    rw [if_pos hlt]
    show ((interruptActsAt s.serve_acts hidx Cause.preempted).getD hidx
        dfltAct).act.interruptedWith = some Cause.preempted
    rw [interruptActsAt, getD_set_self _ _ _ _ hrange]
    simp only [List.getD_eq_getElem?_getD] at htrig
    simp [htrig, Activity.interrupt]

/-- Witness for C3 on a concrete scenario: priority-3 process 1 is holding
the CPU when priority-1 process 2 requests it. -/
theorem claim_C3_witness :
    (1 : ℕ) < 3 ∧
    (PP_request (PP_add_process (PP_request (PP_add_process PP_init
        (Process_init 1 0 5 3)) 0 3) (Process_init 2 0 4 1)) 1 1).holder
      = some (1, 1) ∧
    ((PP_request (PP_add_process (PP_request (PP_add_process PP_init
        (Process_init 1 0 5 3)) 0 3) (Process_init 2 0 4 1)) 1 1).serve_acts.getD 0
        dfltAct).act.interruptedWith = some Cause.preempted ∧
    (PP_serve_preempted (Process_init 1 0 5 3) 0 2).burst_time_remaining
      = (Process_init 1 0 5 3).burst_time_remaining - (2 - 0) := by
  have h := claim_C3 (PP_add_process (PP_request (PP_add_process PP_init
      (Process_init 1 0 5 3)) 0 3) (Process_init 2 0 4 1)) 0 3 1 1
      (by decide) (by decide) (by decide) (by decide)
  exact ⟨by decide, h.1, h.2.1, h.2.2.1 (Process_init 1 0 5 3) 0 2⟩

/-- C4: each completing process gets exactly one recorded wait, nonnegative:
for FCFS/SJF the service step appends exactly the wait
service-start − arrival; a Round-Robin slice appends a wait exactly when it
is the first service, and a full uninterrupted Round-Robin service of a
fresh process appends exactly one wait, first-grant − arrival; the
Preemptive-Priority wait is grant − admission. -/
theorem claim_C4 :
    (∀ (w : List ℚ) (p : Process) (st : ℚ), p.arrival_time ≤ st →
        (NP_serve_process w p st).1 = w ++ [st - p.arrival_time] ∧
        0 ≤ st - p.arrival_time) ∧
    (∀ (q : ℚ) (w : List ℚ) (qu : List Process) (p : Process) (now : ℚ),
        p.burst_time_remaining = p.burst_time_initial →
        (RR_serve_process q w qu p now).wait_times = w ++ [now - p.arrival_time]) ∧
    (∀ (q : ℚ) (w : List ℚ) (qu : List Process) (p : Process) (now : ℚ),
        p.burst_time_remaining ≠ p.burst_time_initial →
        (RR_serve_process q w qu p now).wait_times = w) ∧
    (∀ (q : ℚ) (n : ℕ) (nows w : List ℚ) (p : Process) (now : ℚ),
        0 < q → 0 < p.burst_time_initial →
        p.burst_time_remaining = p.burst_time_initial →
        RR_serve_run q (n + 1) (now :: nows) w p = w ++ [now - p.arrival_time]) ∧
    (∀ (start_wait now : ℚ), start_wait ≤ now →
        PP_wait_time start_wait now = now - start_wait ∧
        0 ≤ PP_wait_time start_wait now) := by
  refine ⟨?_, ?_, ?_, ?_, ?_⟩
  · intro w p st h
    exact ⟨rfl, by linarith⟩
  · intro q w qu p now h
    rw [RR_serve_process_wait_times, if_pos h]
  · intro q w qu p now h
    rw [RR_serve_process_wait_times, if_neg h]
  · intro q n nows w p now hq hinit hfresh
    have hrem0 : 0 < p.burst_time_remaining := by rw [hfresh]; exact hinit
    rw [RR_serve_run, if_neg (not_le.mpr hrem0)]
    have hw : (RR_serve_process q w [] p now).wait_times
        = w ++ [now - p.arrival_time] := by
      rw [RR_serve_process_wait_times, if_pos hfresh]
    have hmin : 0 < min q p.burst_time_remaining := lt_min hq hrem0
    have hlt' : (RR_serve_process q w [] p now).process.burst_time_remaining
        < (RR_serve_process q w [] p now).process.burst_time_initial := by
      rw [RR_serve_process_process]
      show p.burst_time_remaining - min q p.burst_time_remaining
        < p.burst_time_initial
      linarith [hfresh.le, hfresh.ge]
    rw [hw]
    exact RR_serve_run_of_lt q (le_of_lt hq) n nows _ _ hlt'
  · intro start_wait now h
    refine ⟨rfl, ?_⟩
    show 0 ≤ now - start_wait
    linarith

/-- Witness for C4 at concrete inputs: a process arriving at time 2 with
burst 1, first served at time 3 under each policy's bookkeeping. -/
theorem claim_C4_witness :
    ((NP_serve_process [] (Process_init 1 2 1 5) 3).1
        = [] ++ [(3 : ℚ) - (Process_init 1 2 1 5).arrival_time] ∧
      (0 : ℚ) ≤ 3 - (Process_init 1 2 1 5).arrival_time) ∧
    RR_serve_run RR_QUANTUM 5 [3, 4, 5, 6] [] (Process_init 1 2 1 5)
      = [] ++ [(3 : ℚ) - (Process_init 1 2 1 5).arrival_time] ∧
    (PP_wait_time 2 3 = (3 : ℚ) - 2 ∧ (0 : ℚ) ≤ PP_wait_time 2 3) := by
  refine ⟨claim_C4.1 [] (Process_init 1 2 1 5) 3 (by norm_num [Process_init]), ?_, ?_⟩
  · exact claim_C4.2.2.2.1 RR_QUANTUM 4 [4, 5, 6] [] (Process_init 1 2 1 5) 3
      (by norm_num [RR_QUANTUM]) (by norm_num [Process_init]) rfl
  · exact claim_C4.2.2.2.2 2 3 (by norm_num)

/-- C5: a fresh process starts with remaining equal to initial demand; a
Round-Robin slice never makes the remaining burst negative and never
increases it; the Preemptive-Priority preemption decrement, with the elapsed
execution time lying inside the running timeout, never makes it negative and
never increases it. -/
theorem claim_C5 :
    (∀ (pid : ℕ) (t d : ℚ) (prio : ℕ),
        (Process_init pid t d prio).burst_time_remaining
          = (Process_init pid t d prio).burst_time_initial) ∧
    (∀ (q : ℚ) (w : List ℚ) (qu : List Process) (p : Process) (now : ℚ),
        0 ≤ q → 0 ≤ p.burst_time_remaining →
        0 ≤ (RR_serve_process q w qu p now).process.burst_time_remaining ∧
        (RR_serve_process q w qu p now).process.burst_time_remaining
          ≤ p.burst_time_remaining) ∧
    (∀ (p : Process) (ts tn : ℚ), ts ≤ tn →
        tn ≤ ts + p.burst_time_remaining →
        0 ≤ (PP_serve_preempted p ts tn).burst_time_remaining ∧
        (PP_serve_preempted p ts tn).burst_time_remaining
          ≤ p.burst_time_remaining) := by
  refine ⟨fun pid t d prio => rfl, ?_, ?_⟩
  · intro q w qu p now hq hrem
    rw [RR_serve_process_process]
    show 0 ≤ p.burst_time_remaining - min q p.burst_time_remaining ∧
      p.burst_time_remaining - min q p.burst_time_remaining ≤ p.burst_time_remaining
    have h1 : min q p.burst_time_remaining ≤ p.burst_time_remaining := min_le_right _ _
    have h2 : 0 ≤ min q p.burst_time_remaining := le_min hq hrem
    constructor <;> linarith
  · intro p ts tn h1 h2
    show 0 ≤ p.burst_time_remaining - (tn - ts) ∧
      p.burst_time_remaining - (tn - ts) ≤ p.burst_time_remaining
    constructor <;> linarith

/-- Witness for C5 at concrete inputs. -/
theorem claim_C5_witness :
    (Process_init 1 0 5 3).burst_time_remaining
      = (Process_init 1 0 5 3).burst_time_initial ∧
    (0 ≤ (RR_serve_process RR_QUANTUM [] [] (Process_init 1 0 5 3)
        2).process.burst_time_remaining ∧
      (RR_serve_process RR_QUANTUM [] [] (Process_init 1 0 5 3)
        2).process.burst_time_remaining
        ≤ (Process_init 1 0 5 3).burst_time_remaining) ∧
    (0 ≤ (PP_serve_preempted (Process_init 1 0 5 3) 1 3).burst_time_remaining ∧
      (PP_serve_preempted (Process_init 1 0 5 3) 1 3).burst_time_remaining
        ≤ (Process_init 1 0 5 3).burst_time_remaining) := by
  refine ⟨claim_C5.1 1 0 5 3,
    claim_C5.2.1 RR_QUANTUM [] [] (Process_init 1 0 5 3) 2
      (by norm_num [RR_QUANTUM]) (by norm_num [Process_init]),
    claim_C5.2.2 (Process_init 1 0 5 3) 1 3 (by norm_num)
      (by norm_num [Process_init])⟩

/-- C6: a recovery-time sample is appended only by a run-loop check made
while operational and recovering with the CPU idle and the ready structure
empty, after the restoration (first conjunct); over any event sequence
starting without an open window, the number of samples appended is at most
the number of restorations, hence at most one per catastrophe/restoration
pair (second conjunct); and with no restoration at all (a repair that never
finishes in the horizon) no sample is ever appended (third conjunct). -/
theorem claim_C6 :
    (∀ (s : RecoveryState) (e : RecEvent),
        (recStep s e).recovery_times ≠ s.recovery_times →
        ∃ now, e = RecEvent.check true true now ∧
          s.system_operational = true ∧ s.is_recovering = true ∧
          MTTR_EPS < now - s.last_restoration_time ∧
          (recStep s e).recovery_times
            = s.recovery_times ++ [now - s.last_restoration_time]) ∧
    (∀ (s : RecoveryState) (es : List RecEvent), s.is_recovering = false →
        (recRun s es).recovery_times.length
          ≤ s.recovery_times.length + (es.filter isRestore).length) ∧
    (∀ (s : RecoveryState) (es : List RecEvent), s.is_recovering = false →
        (∀ e ∈ es, isRestore e = false) →
        (recRun s es).recovery_times = s.recovery_times) := by
  refine ⟨recStep_append, ?_, ?_⟩
  · intro s es h
    have hc := recRun_count es s
    rw [h] at hc
    simp only [Bool.false_eq_true, if_false, Nat.add_zero] at hc
    exact le_trans (Nat.le_add_right _ _) hc
  · intro s es h hall
    exact (recRun_no_restore es s h hall).1

/-- Witness for C6 on concrete event sequences. -/
theorem claim_C6_witness :
    (∃ now, RecEvent.check true true 7 = RecEvent.check true true now ∧
        (⟨true, true, 5, []⟩ : RecoveryState).system_operational = true ∧
        (⟨true, true, 5, []⟩ : RecoveryState).is_recovering = true ∧
        MTTR_EPS < now - (⟨true, true, 5, []⟩ : RecoveryState).last_restoration_time ∧
        (recStep ⟨true, true, 5, []⟩ (RecEvent.check true true 7)).recovery_times
          = (⟨true, true, 5, []⟩ : RecoveryState).recovery_times
              ++ [now - (⟨true, true, 5, []⟩ : RecoveryState).last_restoration_time]) ∧
    (recRun ⟨true, false, 0, []⟩
        [RecEvent.restore 5, RecEvent.check true true 7]).recovery_times.length
      ≤ (⟨true, false, 0, []⟩ : RecoveryState).recovery_times.length
        + ([RecEvent.restore 5, RecEvent.check true true 7].filter isRestore).length ∧
    (recRun ⟨true, false, 0, []⟩
        [RecEvent.catastrophe, RecEvent.check true true 3]).recovery_times
      = (⟨true, false, 0, []⟩ : RecoveryState).recovery_times := by
  refine ⟨claim_C6.1 _ _ (by norm_num [recStep, MTTR_EPS]), claim_C6.2.1 _ _ rfl,
    claim_C6.2.2 _ _ rfl ?_⟩
  intro e he
  cases he with
  | head => rfl
  | tail _ hm =>
      cases hm with
      | head => rfl
      | tail _ hm2 => cases hm2

/-- C7: an uninterrupted Round-Robin process with demand above the quantum
is served in exactly ceil(demand/quantum) slices, each positive and at most
the quantum, summing to the demand; each slice decrements the remaining
burst by min(quantum, remaining); after a slice leaving positive remaining
the process is appended to the tail of the deque and is not complete, and
after the final slice (remaining at 0) it completes without requeue. -/
theorem claim_C7 (quantum d : ℚ) (n : ℕ) (hq : 0 < quantum) (hd : quantum < d)
    (hn : Nat.ceil (d / quantum) ≤ n) :
    (RR_slices quantum n d).length = Nat.ceil (d / quantum) ∧
    (RR_slices quantum n d).sum = d ∧
    (∀ t ∈ RR_slices quantum n d, 0 < t ∧ t ≤ quantum) ∧
    (∀ (w : List ℚ) (qu : List Process) (p : Process) (now : ℚ),
        (RR_serve_process quantum w qu p now).process.burst_time_remaining
          = p.burst_time_remaining - min quantum p.burst_time_remaining) ∧
    (∀ (w : List ℚ) (qu : List Process) (p : Process) (now : ℚ),
        0 < p.burst_time_remaining - min quantum p.burst_time_remaining →
        (RR_serve_process quantum w qu p now).ready_queue
            = qu ++ [(RR_serve_process quantum w qu p now).process] ∧
        (RR_serve_process quantum w qu p now).completed = false) ∧
    (∀ (w : List ℚ) (qu : List Process) (p : Process) (now : ℚ),
        p.burst_time_remaining - min quantum p.burst_time_remaining ≤ 0 →
        (RR_serve_process quantum w qu p now).ready_queue = qu ∧
        (RR_serve_process quantum w qu p now).completed = true) := by
  obtain ⟨hlen, hsum, hmem⟩ :=
    RR_slices_spec quantum hq n d (lt_trans hq hd) hn
  refine ⟨hlen, hsum, hmem, ?_, ?_, ?_⟩
  · intro w qu p now
    rw [RR_serve_process_process]
  · intro w qu p now h
    simp only [RR_serve_process]
    split
    · exact ⟨rfl, rfl⟩
    · next hcond => exact absurd h (by simpa using hcond)
  · intro w qu p now h
    simp only [RR_serve_process]
    split
    · next hcond => exact absurd (by simpa using hcond) (not_lt.mpr h)
    · exact ⟨rfl, rfl⟩

/-- Witness for C7: demand 1 against the default quantum 3/10 gives four
slices 3/10, 3/10, 3/10, 1/10. -/
theorem claim_C7_witness :
    (0 : ℚ) < RR_QUANTUM ∧ RR_QUANTUM < 1 ∧
    (RR_slices RR_QUANTUM 4 1).length = Nat.ceil ((1 : ℚ) / RR_QUANTUM) ∧
    (RR_slices RR_QUANTUM 4 1).sum = 1 := by
  have hceil : Nat.ceil ((1 : ℚ) / RR_QUANTUM) = 4 := by
    rw [show (1 : ℚ) / RR_QUANTUM = 10 / 3 by norm_num [RR_QUANTUM]]
    rw [Nat.ceil_eq_iff (by norm_num)]
    norm_num
  have h := claim_C7 RR_QUANTUM 1 4 (by norm_num [RR_QUANTUM])
    (by norm_num [RR_QUANTUM]) (le_of_eq hceil)
  exact ⟨by norm_num [RR_QUANTUM], by norm_num [RR_QUANTUM], h.1, h.2.1⟩

/-- C8: the reported availability (sim duration − total downtime) over the
sim duration as a percentage lies in [0, 100] for every well-formed history
of completed repairs, and equals 100 when the failure rate is 0 (no
catastrophe drawn, empty completed-repair history). -/
theorem claim_C8 :
    (∀ (T : ℚ) (l : List (ℚ × ℚ)), 0 < T → injectorWF T 0 l = true →
        0 ≤ availability T (injectorDowntime l) ∧
        availability T (injectorDowntime l) ≤ 100) ∧
    (∀ (T : ℚ) (draws : List (ℚ × ℚ)), 0 < T →
        availability T (injectorDowntime (completedRepairs 0 draws)) = 100) := by
  constructor
  · intro T l hT hwf
    obtain ⟨h0, h1⟩ := injectorWF_downtime T l 0 (le_of_lt hT) hwf
    constructor
    · apply mul_nonneg _ (by norm_num)
      apply div_nonneg _ (le_of_lt hT)
      linarith
    · have hdiv : (T - injectorDowntime l) / T ≤ 1 := by
        apply (div_le_one hT).mpr
        linarith
      calc (T - injectorDowntime l) / T * 100
          ≤ 1 * 100 := by
            exact mul_le_mul_of_nonneg_right hdiv (by norm_num)
        _ = 100 := one_mul 100
  · intro T draws hT
    show (T - injectorDowntime (completedRepairs 0 draws)) / T * 100 = 100
    rw [show completedRepairs 0 draws = [] from if_pos rfl]
    rw [show injectorDowntime [] = 0 from rfl, sub_zero,
      div_self (ne_of_gt hT), one_mul]

/-- Witness for C8: horizon 10 with one completed repair of duration 3. -/
theorem claim_C8_witness :
    injectorWF 10 0 [((2 : ℚ), (3 : ℚ))] = true ∧
    (0 ≤ availability 10 (injectorDowntime [((2 : ℚ), (3 : ℚ))]) ∧
      availability 10 (injectorDowntime [((2 : ℚ), (3 : ℚ))]) ≤ 100) ∧
    availability 10 (injectorDowntime (completedRepairs 0 [((1 : ℚ), (1 : ℚ))])) = 100 := by
  refine ⟨by norm_num [injectorWF],
    claim_C8.1 10 [((2 : ℚ), (3 : ℚ))] (by norm_num) (by norm_num [injectorWF]),
    claim_C8.2 10 [((1 : ℚ), (1 : ℚ))] (by norm_num)⟩

/-- C9 counterexample: with the failure-rate parameter set to 0 (≤ 0), the
pre-run phase of the entry point still completes without any configuration
error — the program does not fail fast on invalid rates. -/
theorem claim_C9_counterexample :
    ({ defaultConfig with xi_failure_rate := 0 } : Config).xi_failure_rate ≤ 0 ∧
    preRunSetup { defaultConfig with xi_failure_rate := 0 } = Except.ok () :=
  ⟨le_refl 0, rfl⟩

/-- C9 (amended): the entry point performs no pre-run validation at all:
for every configuration, including ones with rate parameters ≤ 0 or a
nonpositive sim_duration, the pre-run phase completes without raising a
configuration error. -/
theorem claim_C9 (c : Config) : preRunSetup c = Except.ok () := rfl

/-- C10: when any of the three run loops closes a recovery window
(operational, recovering, CPU idle, ready structure empty), the recovering
flag is cleared; the sample now − last_restoration_time is appended exactly
when it exceeds 1e-6, and a window measuring at most 1e-6 emits no sample. -/
theorem claim_C10 (s : RecoveryState) (now : ℚ)
    (hop : s.system_operational = true) (hrec : s.is_recovering = true) :
    (recStep s (RecEvent.check true true now)).is_recovering = false ∧
    (MTTR_EPS < now - s.last_restoration_time →
        (recStep s (RecEvent.check true true now)).recovery_times
          = s.recovery_times ++ [now - s.last_restoration_time]) ∧
    (now - s.last_restoration_time ≤ MTTR_EPS →
        (recStep s (RecEvent.check true true now)).recovery_times
          = s.recovery_times) := by
  refine ⟨?_, ?_, ?_⟩
  · simp [recStep, hop, hrec]
  · intro h
    simp [recStep, hop, hrec, h]
  · intro h
    have hn := not_lt.mpr h
    simp [recStep, hop, hrec, hn]

/-- Witness for C10 on a concrete state: windows of length 2 and of length
exactly 1e-6. -/
theorem claim_C10_witness :
    (recStep ⟨true, true, 5, []⟩ (RecEvent.check true true 7)).is_recovering = false ∧
    (recStep ⟨true, true, 5, []⟩ (RecEvent.check true true 7)).recovery_times
      = ([] : List ℚ) ++ [(7 : ℚ) - 5] ∧
    (recStep ⟨true, true, 5, []⟩
        (RecEvent.check true true (5 + MTTR_EPS))).recovery_times = ([] : List ℚ) := by
  refine ⟨(claim_C10 ⟨true, true, 5, []⟩ 7 rfl rfl).1,
    (claim_C10 ⟨true, true, 5, []⟩ 7 rfl rfl).2.1 (by norm_num [MTTR_EPS]),
    (claim_C10 ⟨true, true, 5, []⟩ (5 + MTTR_EPS) rfl rfl).2.2 (by norm_num)⟩

end CatastropheSim
